import Mathlib

/-!
Shallow embedding of the `evo/threads` C11-threads emulation layer
(win32 backend, `src/evo/threads/win32.c`, with the enumeration
constants from `include/evo/threads/threads.h`).

Modelling conventions:
  * `struct timespec` becomes a pair of mathematical integers
    (`tv_sec : Int`, `tv_nsec : Int`); `time_t` arithmetic is modelled
    exactly, and the final `(DWORD)` cast in `impl_abs2relmsec` is
    modelled as reduction modulo `2^32`, as in C.
  * C truncating division (`/` on signed integers) is `Int.tdiv`.
  * Native calls whose outcome depends on the environment
    (`TryEnterCriticalSection`, `WaitForSingleObject`,
    `GetExitCodeThread`, `TlsAlloc`, `TlsGetValue`) are modelled by
    explicit environment parameters.
  * A failed `assert` is modelled as the `none` outcome of an
    `Option`-valued function.
  * The emulated `call_once` (the `#else` branch of the source, an
    `InterlockedCompareExchangePointer` on `flag->status` followed by
    either running the function and storing 2, or spinning while the
    status is 1) is modelled as an interleaving transition system over
    any multiset of racing caller threads.
-/

namespace EvoThreads

/-! ## Enumeration constants (threads.h) -/

def mtx_plain : Int := 0

def mtx_try : Int := 1

def mtx_timed : Int := 2

def mtx_recursive : Int := 4

def thrd_success : Nat := 0

def thrd_timedout : Nat := 1

def thrd_error : Nat := 2

def thrd_busy : Nat := 3

def thrd_nomem : Nat := 4

def EMULATED_THREADS_TSS_DTOR_SLOTNUM : Nat := 64

/-! ## Time conversion (win32.c, `impl_timespec2msec` / `impl_abs2relmsec`) -/

/-- `struct timespec`: absolute time as seconds plus nanoseconds. -/
structure Timespec where
  tv_sec : Int
  tv_nsec : Int
deriving DecidableEq

/-- `impl_timespec2msec`: `(ts->tv_sec * 1000U) + (ts->tv_nsec / 1000000L)`,
with C truncating division on the nanosecond field. -/
def impl_timespec2msec (ts : Timespec) : Int :=
  ts.tv_sec * 1000 + ts.tv_nsec.tdiv 1000000

/-- `impl_abs2relmsec`: remaining milliseconds until `abs_time`, measured
against the sampled current time `now`; the positive difference is cast to
`DWORD` (32-bit unsigned), i.e. reduced modulo `2^32`, and a deadline at or
before `now` yields 0. -/
def impl_abs2relmsec (abs_time now : Timespec) : Int :=
  let abs_ms := impl_timespec2msec abs_time
  let now_ms := impl_timespec2msec now
  if abs_ms > now_ms then (abs_ms - now_ms) % 4294967296 else 0

/-! ## Mutex functions (win32.c) -/

/-- `mtx_trylock`: `TryEnterCriticalSection(...) ? thrd_success : thrd_busy`.
The boolean is the outcome of the native try-enter call. -/
def mtx_trylock (acquired : Bool) : Nat :=
  if acquired then thrd_success else thrd_busy

/-- `mtx_timedlock`: the emulated poll loop
`while (mtx_trylock(mtx) != thrd_success) { if (impl_abs2relmsec(ts) == 0) return thrd_timedout; thrd_yield(); } return thrd_success;`.
Each trace element supplies one iteration's native try-enter outcome and the
clock sample read by `impl_abs2relmsec` in that iteration; `none` means the
loop is still running when the supplied trace is exhausted. -/
def mtx_timedlock (ts : Timespec) : List (Bool × Timespec) → Option Nat
  | [] => none
  | (acq, now) :: rest =>
    if mtx_trylock acq ≠ thrd_success then
      if impl_abs2relmsec ts now = 0 then some thrd_timedout
      else mtx_timedlock ts rest
    else some thrd_success

/-- `mtx_init`: reject any `type` outside the six valid kind combinations,
otherwise initialize the critical section. The boolean records whether
`InitializeCriticalSection` was invoked. -/
def mtx_init (type : Int) : Nat × Bool :=
  if type ≠ mtx_plain ∧ type ≠ mtx_timed ∧ type ≠ mtx_try ∧
      type ≠ Int.lor mtx_plain mtx_recursive ∧
      type ≠ Int.lor mtx_timed mtx_recursive ∧
      type ≠ Int.lor mtx_try mtx_recursive then
    (thrd_error, false)
  else
    (thrd_success, true)

/-! ## Thread functions (win32.c) -/

/-- Environment of one `thrd_join` call: outcome of
`WaitForSingleObject(thr, INFINITE) == WAIT_OBJECT_0`, outcome of
`GetExitCodeThread`, and the exit code it reports. -/
structure JoinEnv where
  waitOk : Bool
  getCodeOk : Bool
  exitCode : Nat
deriving DecidableEq

/-- Observable outcome of `thrd_join`: return value, whether `CloseHandle`
was called on the thread handle, and the value stored through `res`. -/
structure JoinOutcome where
  ret : Nat
  handleClosed : Bool
  resOut : Option Nat
deriving DecidableEq

/-- `thrd_join`: wait for the thread; on wait failure return `thrd_error`;
otherwise, if `res` is non-null, fetch the exit code (closing the handle and
returning `thrd_error` on fetch failure, else storing it); finally close the
handle and return `thrd_success`. `resRequested` models `res != NULL`. -/
def thrd_join (env : JoinEnv) (resRequested : Bool) : JoinOutcome :=
  if env.waitOk = false then ⟨thrd_error, false, none⟩
  else if resRequested then
    if env.getCodeOk = false then ⟨thrd_error, true, none⟩
    else ⟨thrd_success, true, some env.exitCode⟩
  else ⟨thrd_success, true, none⟩

/-- `thrd_sleep`: `assert(!remaining)` rejects a non-null `remaining`
pointer (modelled as the `none` outcome); otherwise `Sleep` and return 0.
`remainingRequested` models `remaining != NULL`. -/
def thrd_sleep (time_point : Timespec) (remainingRequested : Bool) : Option Int :=
  if remainingRequested then none
  else
    let _ := impl_timespec2msec time_point
    some 0

/-! ## Thread-specific storage (win32.c) -/

/-- One entry of `impl_tss_dtor_tbl`: a key and a destructor function
pointer, where `none` models a NULL pointer (a free entry). Destructor
identities are abstracted as naturals. -/
structure TssDtorEntry where
  key : Nat
  dtor : Option Nat
deriving DecidableEq

/-- `impl_tss_dtor_register`: scan the table for the first entry whose
`dtor` is NULL; if none exists return failure (`none`, modelling C result 1),
else store `(key, dtor)` there and succeed with the updated table. -/
def impl_tss_dtor_register : List TssDtorEntry → Nat → Nat → Option (List TssDtorEntry)
  | [], _, _ => none
  | e :: rest, k, d =>
    match e.dtor with
    | none => some ({ key := k, dtor := some d } :: rest)
    | some _ => (impl_tss_dtor_register rest k d).map (e :: ·)

/-- `impl_tss_dtor_invoke`: sweep the table in order; for every entry with a
non-NULL destructor whose key has a non-NULL value in the exiting thread's
TLS (`tss_get`), invoke the destructor on that value. The result is the
ordered trace of invocations as `(key, dtor, value)` triples. -/
def impl_tss_dtor_invoke (tbl : List TssDtorEntry) (tls : Nat → Option Nat) :
    List (Nat × Nat × Nat) :=
  match tbl with
  | [] => []
  | e :: rest =>
    match e.dtor with
    | some d =>
      match tls e.key with
      | some v => (e.key, d, v) :: impl_tss_dtor_invoke rest tls
      | none => impl_tss_dtor_invoke rest tls
    | none => impl_tss_dtor_invoke rest tls

/-- Observable outcome of `tss_create`: return value, whether `TlsFree` was
called on the freshly allocated slot, and the destructor table afterwards. -/
structure TssCreateOutcome where
  ret : Nat
  slotFreed : Bool
  tbl : List TssDtorEntry
deriving DecidableEq

/-- `tss_create`: `*key = TlsAlloc()` (the allocated slot is the `slot`
parameter); with a non-null `dtor`, a failed registration frees the slot and
returns `thrd_error`; otherwise the call returns `thrd_success` exactly when
the slot is not `TLS_OUT_OF_INDEXES` (`0xFFFFFFFF`). -/
def tss_create (tbl : List TssDtorEntry) (slot : Nat) (dtor : Option Nat) :
    TssCreateOutcome :=
  match dtor with
  | some d =>
    match impl_tss_dtor_register tbl slot d with
    | none => ⟨thrd_error, true, tbl⟩
    | some tbl2 => ⟨if slot ≠ 4294967295 then thrd_success else thrd_error, false, tbl2⟩
  | none => ⟨if slot ≠ 4294967295 then thrd_success else thrd_error, false, tbl⟩

/-- Process-wide TSS state: the allocated native slot handles and the
destructor table. -/
structure TssState where
  slots : List Nat
  tbl : List TssDtorEntry
deriving DecidableEq

/-- `tss_delete`: `TlsFree(key)` only — the native slot handle is released
and nothing else happens; in particular the destructor table is untouched. -/
def tss_delete (st : TssState) (key : Nat) : TssState :=
  { st with slots := st.slots.erase key }

/-! ## Emulated `call_once` (win32.c, `#else` branch)

Each caller of `call_once(flag, func)` executes, against the shared
`flag->status` word (0 = not started, 1 = in progress, 2 = completed):

  * `InterlockedCompareExchangePointer(&flag->status, 1, 0)`: if it reads 0
    it installs 1 and the caller proceeds to run `func` (`run`) and then
    store 2 (`mark`); otherwise the caller spins (`spinWait`) while the
    status equals 1, returning (`done`) once it differs.

The system below interleaves any multiset of callers; `execs` counts the
completed executions of `func`'s body. -/

/-- Program counter of one `call_once` caller in the emulated path. -/
inductive PC where
  | start
  | run
  | mark
  | spinWait
  | done
deriving DecidableEq

/-- Global configuration: the shared `flag->status` word, the number of
times `func` has run, and the multiset of caller program counters. -/
structure OnceConfig where
  status : Nat
  execs : Nat
  pcs : Multiset PC
deriving DecidableEq

/-- One atomic step of one caller of the emulated `call_once`. -/
inductive OnceStep : OnceConfig → OnceConfig → Prop where
  | cas_win (e : Nat) (rest : Multiset PC) :
      OnceStep ⟨0, e, PC.start ::ₘ rest⟩ ⟨1, e, PC.run ::ₘ rest⟩
  | cas_lose (s e : Nat) (rest : Multiset PC) (hs : s ≠ 0) :
      OnceStep ⟨s, e, PC.start ::ₘ rest⟩ ⟨s, e, PC.spinWait ::ₘ rest⟩
  | runFunc (s e : Nat) (rest : Multiset PC) :
      OnceStep ⟨s, e, PC.run ::ₘ rest⟩ ⟨s, e + 1, PC.mark ::ₘ rest⟩
  | markDone (s e : Nat) (rest : Multiset PC) :
      OnceStep ⟨s, e, PC.mark ::ₘ rest⟩ ⟨2, e, PC.done ::ₘ rest⟩
  | spinAgain (e : Nat) (rest : Multiset PC) :
      OnceStep ⟨1, e, PC.spinWait ::ₘ rest⟩ ⟨1, e, PC.spinWait ::ₘ rest⟩
  | spinExit (s e : Nat) (rest : Multiset PC) (hs : s ≠ 1) :
      OnceStep ⟨s, e, PC.spinWait ::ₘ rest⟩ ⟨s, e, PC.done ::ₘ rest⟩

/-- Initial configuration: `flag` statically initialized to `{0}`
(`ONCE_FLAG_INIT`), no execution yet, `n` callers about to race. -/
def onceInit (n : Nat) : OnceConfig :=
  ⟨0, 0, Multiset.replicate n PC.start⟩

/-- Configurations reachable by interleaving `n` racing callers. -/
def OnceReachable (n : Nat) (c : OnceConfig) : Prop :=
  Relation.ReflTransGen OnceStep (onceInit n) c

/-- Inductive invariant of the emulated `call_once` system: before the CAS
is won nothing has run and everyone is at `start`; while the status is
`in-progress` exactly one caller is executing (`run` before the body,
`mark` after it) and nobody has returned; once `completed`, the function has
run exactly once and no caller is still executing it. -/
def OnceInv (c : OnceConfig) : Prop :=
  (c.status = 0 ∧ c.execs = 0 ∧ c.pcs.count PC.run = 0 ∧ c.pcs.count PC.mark = 0 ∧
    c.pcs.count PC.spinWait = 0 ∧ c.pcs.count PC.done = 0) ∨
  (c.status = 1 ∧ c.pcs.count PC.run + c.pcs.count PC.mark = 1 ∧
    c.execs = c.pcs.count PC.mark ∧ c.pcs.count PC.done = 0) ∨
  (c.status = 2 ∧ c.execs = 1 ∧ c.pcs.count PC.run = 0 ∧ c.pcs.count PC.mark = 0)

/-- The invariant is preserved by every step of every caller. -/
theorem onceInv_step {c c2 : OnceConfig} (hs : OnceStep c c2) (hi : OnceInv c) :
    OnceInv c2 := by
  cases hs <;> simp [OnceInv, Multiset.count_cons, -Multiset.count_eq_zero] at hi ⊢ <;>
    omega

/-- The invariant holds initially. -/
theorem onceInv_init (n : Nat) : OnceInv (onceInit n) := by
  have h : ∀ q : PC, q ≠ PC.start → (Multiset.replicate n PC.start).count q = 0 := by
    intro q hq
    rw [Multiset.count_eq_zero]
    intro hm
    exact hq (Multiset.eq_of_mem_replicate hm)
  exact Or.inl ⟨rfl, rfl, h _ (by decide), h _ (by decide), h _ (by decide),
    h _ (by decide)⟩

/-- The invariant holds in every reachable configuration. -/
theorem onceInv_reachable {n : Nat} {c : OnceConfig} (h : OnceReachable n c) :
    OnceInv c := by
  have h2 : Relation.ReflTransGen OnceStep (onceInit n) c := h
  clear h
  induction h2 with
  | refl => exact onceInv_init n
  | tail _ hstep ih => exact onceInv_step hstep ih

/-! ## Theorems -/

/-- Claim C1: for a once-flag shared by any number of concurrently racing
callers of the emulated `call_once`, in every reachable interleaving the
initializer has run at most once, and whenever any caller has returned
(reached `done`) the initializer has run exactly once and the flag is marked
completed — so the single CAS winner runs the function, marks completion,
and every caller (winner or spinning loser) returns only after the function
has fully completed. -/
theorem call_once_exactly_once (n : Nat) (c : OnceConfig)
    (h : OnceReachable n c) :
    c.execs ≤ 1 ∧ (PC.done ∈ c.pcs → c.execs = 1 ∧ c.status = 2) := by
  have hi := onceInv_reachable h
  simp only [OnceInv] at hi
  rcases hi with ⟨_, he, _, _, _, hd⟩ | ⟨_, hsum, he, hd⟩ | ⟨hs, he, _, _⟩
  · exact ⟨by omega, fun hm => absurd hm (Multiset.count_eq_zero.mp hd)⟩
  · exact ⟨by omega, fun hm => absurd hm (Multiset.count_eq_zero.mp hd)⟩
  · exact ⟨by omega, fun _ => ⟨he, hs⟩⟩

/-- Witness for C1: with two racing callers, a full interleaving in which
the first caller wins the CAS, runs the function and marks completion is
reachable, and there the function has run exactly once with the flag
completed. -/
theorem call_once_exactly_once_witness :
    OnceReachable 2 ⟨2, 1, PC.done ::ₘ PC.start ::ₘ 0⟩ ∧
    (⟨2, 1, PC.done ::ₘ PC.start ::ₘ 0⟩ : OnceConfig).execs = 1 ∧
    (⟨2, 1, PC.done ::ₘ PC.start ::ₘ 0⟩ : OnceConfig).status = 2 := by
  have hinit : onceInit 2 = ⟨0, 0, PC.start ::ₘ PC.start ::ₘ 0⟩ := by
    simp [onceInit, Multiset.replicate_succ]
  have hr : OnceReachable 2 ⟨2, 1, PC.done ::ₘ PC.start ::ₘ 0⟩ := by
    have h1 : Relation.ReflTransGen OnceStep ⟨0, 0, PC.start ::ₘ PC.start ::ₘ 0⟩
        ⟨2, 1, PC.done ::ₘ PC.start ::ₘ 0⟩ :=
      Relation.ReflTransGen.head (OnceStep.cas_win 0 (PC.start ::ₘ 0))
        (Relation.ReflTransGen.head (OnceStep.runFunc 1 0 (PC.start ::ₘ 0))
          (Relation.ReflTransGen.head (OnceStep.markDone 1 1 (PC.start ::ₘ 0))
            Relation.ReflTransGen.refl))
    show Relation.ReflTransGen OnceStep (onceInit 2) _
    rw [hinit]
    exact h1
  have h := (call_once_exactly_once 2 _ hr).2 (by decide)
  exact ⟨hr, h.1, h.2⟩

/-- Claim C2: on the emulated backend `mtx_timedlock` is a poll loop over
`mtx_trylock`: a failed attempt with the deadline at or before the sampled
current time returns `thrd_timedout` immediately (independently of any later
iterations, i.e. without blocking); a failed attempt with remaining time
nonzero just polls again; and `thrd_success` is only ever produced by an
iteration whose `mtx_trylock` succeeded. -/
theorem mtx_timedlock_poll_spec (ts now : Timespec) (rest : List (Bool × Timespec)) :
    (impl_timespec2msec ts ≤ impl_timespec2msec now →
      mtx_timedlock ts ((false, now) :: rest) = some thrd_timedout) ∧
    (impl_abs2relmsec ts now ≠ 0 →
      mtx_timedlock ts ((false, now) :: rest) = mtx_timedlock ts rest) ∧
    (∀ trace : List (Bool × Timespec),
      mtx_timedlock ts trace = some thrd_success → ∃ p ∈ trace, p.1 = true) := by
  refine ⟨?_, ?_, ?_⟩
  · intro h
    have hz : impl_abs2relmsec ts now = 0 := by
      simp only [impl_abs2relmsec]
      rw [if_neg (by omega)]
    simp [mtx_timedlock, mtx_trylock, thrd_busy, thrd_success, hz]
  · intro h
    simp [mtx_timedlock, mtx_trylock, thrd_busy, thrd_success, h]
  · intro trace
    induction trace with
    | nil => intro h; simp [mtx_timedlock] at h
    | cons p rest2 ih =>
      obtain ⟨acq, now2⟩ := p
      cases acq with
      | true =>
        intro _
        exact ⟨(true, now2), List.mem_cons_self _ _, rfl⟩
      | false =>
        intro h
        simp only [mtx_timedlock, mtx_trylock, thrd_busy, thrd_success] at h
        norm_num at h
        split at h
        · simp [thrd_timedout, thrd_success] at h
        · obtain ⟨q, hq, hq1⟩ := ih h
          exact ⟨q, List.mem_cons_of_mem _ hq, hq1⟩

/-- Witness for C2: with the mutex held (failed trylock) and a deadline one
second in the past, the loop times out at once; and a successful trylock is
what produces success. -/
theorem mtx_timedlock_poll_spec_witness :
    mtx_timedlock ⟨0, 0⟩ [(false, ⟨1, 0⟩)] = some thrd_timedout ∧
    ∃ p ∈ [((true : Bool), (⟨5, 0⟩ : Timespec))], p.1 = true := by
  refine ⟨(mtx_timedlock_poll_spec ⟨0, 0⟩ ⟨1, 0⟩ []).1 (by decide), ?_⟩
  exact (mtx_timedlock_poll_spec ⟨0, 0⟩ ⟨1, 0⟩ []).2.2 [(true, ⟨5, 0⟩)] (by decide)

/-- Claim C10: `mtx_timedlock` calls `mtx_trylock` before ever checking the
deadline, so if the first trylock succeeds (mutex not held) the call returns
`thrd_success` for every deadline, even one already in the past; the
`thrd_timedout` result requires the first trylock attempt to have failed. -/
theorem mtx_timedlock_trylock_first (ts : Timespec) :
    (∀ (now : Timespec) (rest : List (Bool × Timespec)),
      mtx_timedlock ts ((true, now) :: rest) = some thrd_success) ∧
    (∀ trace, mtx_timedlock ts trace = some thrd_timedout →
      ∃ now rest, trace = (false, now) :: rest) := by
  constructor
  · intro now rest
    simp [mtx_timedlock, mtx_trylock, thrd_success]
  · intro trace h
    match trace with
    | [] => simp [mtx_timedlock] at h
    | (true, now) :: rest =>
      simp [mtx_timedlock, mtx_trylock, thrd_success, thrd_timedout] at h
    | (false, now) :: rest => exact ⟨now, rest, rfl⟩

/-- Witness for C10: an uncontended mutex is acquired successfully even with
a deadline 100 seconds before now, and a timed-out run started with a failed
trylock. -/
theorem mtx_timedlock_trylock_first_witness :
    mtx_timedlock ⟨0, 0⟩ [(true, ⟨100, 0⟩)] = some thrd_success ∧
    ∃ now rest, [((false : Bool), (⟨2, 0⟩ : Timespec))] = (false, now) :: rest := by
  refine ⟨(mtx_timedlock_trylock_first ⟨0, 0⟩).1 ⟨100, 0⟩ [], ?_⟩
  exact (mtx_timedlock_trylock_first ⟨0, 0⟩).2 [(false, ⟨2, 0⟩)] (by decide)

/-- Counterexample for C4: the positive difference is cast to a 32-bit
`DWORD`, so a deadline exactly `2^32` milliseconds in the future is in the
future with difference `4294967296`, yet `impl_abs2relmsec` returns `0`
rather than that difference. -/
theorem impl_abs2relmsec_wrap_counterexample :
    impl_timespec2msec ⟨0, 0⟩ < impl_timespec2msec ⟨4294967, 296000000⟩ ∧
    impl_timespec2msec ⟨4294967, 296000000⟩ - impl_timespec2msec ⟨0, 0⟩ = 4294967296 ∧
    impl_abs2relmsec ⟨4294967, 296000000⟩ ⟨0, 0⟩ = 0 := by decide

/-- Claim C4, amended: the conversion returns the millisecond difference
(deadline minus now, each as seconds·1000 plus truncated nanoseconds/10^6)
reduced modulo `2^32` when the deadline is in the future — hence the exact
difference whenever it is below `2^32` ms — and exactly zero, never a
negative value, when the deadline is at or before the current time. -/
theorem impl_abs2relmsec_amended (abs_time now : Timespec) :
    (impl_timespec2msec abs_time ≤ impl_timespec2msec now →
      impl_abs2relmsec abs_time now = 0) ∧
    (impl_timespec2msec now < impl_timespec2msec abs_time →
      impl_abs2relmsec abs_time now =
        (impl_timespec2msec abs_time - impl_timespec2msec now) % 4294967296) ∧
    (impl_timespec2msec now < impl_timespec2msec abs_time →
      impl_timespec2msec abs_time - impl_timespec2msec now < 4294967296 →
      impl_abs2relmsec abs_time now =
        impl_timespec2msec abs_time - impl_timespec2msec now) ∧
    0 ≤ impl_abs2relmsec abs_time now := by
  simp only [impl_abs2relmsec]
  refine ⟨?_, ?_, ?_, ?_⟩
  · intro h; rw [if_neg (by omega)]
  · intro h; rw [if_pos (by omega)]
  · intro h hlt
    rw [if_pos (by omega)]
    exact Int.emod_eq_of_lt (by omega) (by omega)
  · split
    · exact Int.emod_nonneg _ (by norm_num)
    · omega

/-- Witness for C4 (amended): a deadline 500 ms ahead of now converts to
500, and a deadline 3 s in the past converts to 0. -/
theorem impl_abs2relmsec_amended_witness :
    impl_abs2relmsec ⟨1, 500000000⟩ ⟨1, 0⟩ = 500 ∧
    impl_abs2relmsec ⟨0, 0⟩ ⟨3, 0⟩ = 0 := by
  constructor
  · have h := (impl_abs2relmsec_amended ⟨1, 500000000⟩ ⟨1, 0⟩).2.2.1
      (by decide) (by decide)
    rw [h]; decide
  · exact (impl_abs2relmsec_amended ⟨0, 0⟩ ⟨3, 0⟩).1 (by decide)

/-- Counterexample for C3: when `WaitForSingleObject` does not return
`WAIT_OBJECT_0`, `thrd_join` returns `thrd_error` without calling
`CloseHandle` — so the handle is not released on every error return path. -/
theorem thrd_join_release_counterexample :
    (thrd_join ⟨false, true, 0⟩ true).ret = thrd_error ∧
    (thrd_join ⟨false, true, 0⟩ true).handleClosed = false := by decide

/-- Claim C3, amended: when the wait on the thread succeeds, `thrd_join`
releases the native handle on every return path (success, and the error
path where fetching the exit code fails), and stores the thread's exit code
through `res` when requested and retrievable; only the wait-failure error
path returns without releasing the handle. -/
theorem thrd_join_amended (env : JoinEnv) (req : Bool) (h : env.waitOk = true) :
    (thrd_join env req).handleClosed = true ∧
    (req = true → env.getCodeOk = true →
      (thrd_join env req).ret = thrd_success ∧
      (thrd_join env req).resOut = some env.exitCode) ∧
    (req = true → env.getCodeOk = false → (thrd_join env req).ret = thrd_error) ∧
    (req = false → (thrd_join env req).ret = thrd_success) := by
  obtain ⟨w, g, code⟩ := env
  simp only at h
  subst h
  cases req <;> cases g <;> simp [thrd_join, thrd_success, thrd_error]

/-- Witness for C3 (amended): a successful join of a thread with exit code
42 closes the handle, succeeds, and reports 42. -/
theorem thrd_join_amended_witness :
    (thrd_join ⟨true, true, 42⟩ true).handleClosed = true ∧
    (thrd_join ⟨true, true, 42⟩ true).ret = thrd_success ∧
    (thrd_join ⟨true, true, 42⟩ true).resOut = some 42 := by
  have h := thrd_join_amended ⟨true, true, 42⟩ true rfl
  exact ⟨h.1, (h.2.1 rfl rfl).1, (h.2.1 rfl rfl).2⟩

/-- Claim C7: `mtx_init` succeeds, after constructing the native critical
section, on exactly the six kind values `{0, 1, 2, 4, 5, 6}` (the
combinations of `mtx_plain`, `mtx_try`, `mtx_timed` with or without
`mtx_recursive`), and returns `thrd_error` constructing nothing on every
other integer. -/
theorem mtx_init_kind_spec (type : Int) :
    ((type = 0 ∨ type = 1 ∨ type = 2 ∨ type = 4 ∨ type = 5 ∨ type = 6) →
      mtx_init type = (thrd_success, true)) ∧
    ((type ≠ 0 ∧ type ≠ 1 ∧ type ≠ 2 ∧ type ≠ 4 ∧ type ≠ 5 ∧ type ≠ 6) →
      mtx_init type = (thrd_error, false)) := by
  have h4 : Int.lor mtx_plain mtx_recursive = 4 := by decide
  have h6 : Int.lor mtx_timed mtx_recursive = 6 := by decide
  have h5 : Int.lor mtx_try mtx_recursive = 5 := by decide
  unfold mtx_init
  rw [h4, h5, h6]
  unfold mtx_plain mtx_timed mtx_try
  constructor
  · intro h
    rw [if_neg (by tauto)]
  · intro h
    rw [if_pos (by tauto)]

/-- Witness for C7: kind 6 (`mtx_timed | mtx_recursive`) is accepted, kind 3
is rejected without construction. -/
theorem mtx_init_kind_spec_witness :
    mtx_init 6 = (thrd_success, true) ∧ mtx_init 3 = (thrd_error, false) :=
  ⟨(mtx_init_kind_spec 6).1 (by norm_num), (mtx_init_kind_spec 3).2 (by norm_num)⟩

/-- Claim C8: `thrd_sleep` with a non-null `remaining` pointer trips the
explicit `assert(!remaining)` rejection (the feature is unimplemented on
this backend) instead of silently ignoring the request, while a null
`remaining` sleeps and returns 0. -/
theorem thrd_sleep_remaining_rejected (time_point : Timespec) :
    thrd_sleep time_point true = none ∧ thrd_sleep time_point false = some 0 :=
  ⟨rfl, rfl⟩

/-- A full destructor table (no NULL `dtor` entry) makes registration fail. -/
theorem impl_tss_dtor_register_none_of_full (tbl : List TssDtorEntry) (k d : Nat)
    (h : ∀ e ∈ tbl, e.dtor.isSome = true) :
    impl_tss_dtor_register tbl k d = none := by
  induction tbl with
  | nil => rfl
  | cons e rest ih =>
    cases hd : e.dtor with
    | none =>
      have he := h e (List.mem_cons_self _ _)
      rw [hd] at he
      simp at he
    | some d2 =>
      simp [impl_tss_dtor_register, hd,
        ih (fun x hx => h x (List.mem_cons_of_mem _ hx))]

/-- Registration stores the pair in the first free entry of the table. -/
theorem impl_tss_dtor_register_first_free (pre post : List TssDtorEntry)
    (e : TssDtorEntry) (k d : Nat)
    (hpre : ∀ x ∈ pre, x.dtor.isSome = true) (he : e.dtor = none) :
    impl_tss_dtor_register (pre ++ e :: post) k d =
      some (pre ++ { key := k, dtor := some d } :: post) := by
  induction pre with
  | nil => simp [impl_tss_dtor_register, he]
  | cons x pre2 ih =>
    have hx := hpre x (List.mem_cons_self _ _)
    cases hd : x.dtor with
    | none =>
      rw [hd] at hx
      simp at hx
    | some d2 =>
      simp [impl_tss_dtor_register, hd,
        ih (fun y hy => hpre y (List.mem_cons_of_mem _ hy))]

/-- Claim C5: `tss_create` with a non-null destructor and a fully occupied
64-entry destructor table returns `thrd_error` after freeing the native slot
it had allocated, leaving the table unchanged; when a free entry exists, the
`(slot, destructor)` pair is stored in the first free entry, the slot is
kept, and the call returns `thrd_success`. -/
theorem tss_create_table_spec (tbl : List TssDtorEntry) (slot d : Nat)
    (_hlen : tbl.length = EMULATED_THREADS_TSS_DTOR_SLOTNUM)
    (hslot : slot ≠ 4294967295) :
    ((∀ e ∈ tbl, e.dtor.isSome = true) →
      tss_create tbl slot (some d) = ⟨thrd_error, true, tbl⟩) ∧
    (∀ pre e post, tbl = pre ++ e :: post →
      (∀ x ∈ pre, x.dtor.isSome = true) → e.dtor = none →
      tss_create tbl slot (some d) =
        ⟨thrd_success, false, pre ++ { key := slot, dtor := some d } :: post⟩) := by
  constructor
  · intro hfull
    simp [tss_create, impl_tss_dtor_register_none_of_full tbl slot d hfull]
  · intro pre e post htbl hpre he
    subst htbl
    simp [tss_create, impl_tss_dtor_register_first_free pre post e slot d hpre he,
      hslot]

/-- Witness for C5: a table of 64 occupied entries rejects a new destructor
and frees the slot; a table whose second entry is free stores the pair there
and succeeds. -/
theorem tss_create_table_spec_witness :
    tss_create (List.replicate 64 ⟨0, some 1⟩) 3 (some 9) =
      ⟨thrd_error, true, List.replicate 64 ⟨0, some 1⟩⟩ ∧
    tss_create (⟨1, some 2⟩ :: ⟨0, none⟩ :: List.replicate 62 ⟨0, none⟩) 3 (some 9) =
      ⟨thrd_success, false,
        ⟨1, some 2⟩ :: ⟨3, some 9⟩ :: List.replicate 62 ⟨0, none⟩⟩ := by
  constructor
  · exact (tss_create_table_spec (List.replicate 64 ⟨0, some 1⟩) 3 9
      (by decide) (by decide)).1 (by decide)
  · have h := (tss_create_table_spec
      (⟨1, some 2⟩ :: ⟨0, none⟩ :: List.replicate 62 ⟨0, none⟩) 3 9
      (by decide) (by decide)).2
      [⟨1, some 2⟩] ⟨0, none⟩ (List.replicate 62 ⟨0, none⟩) rfl (by decide) rfl
    simpa using h

/-- The sweep never invokes anything for a key whose TLS value is NULL. -/
theorem impl_tss_dtor_invoke_filter_none (tbl : List TssDtorEntry)
    (tls : Nat → Option Nat) (k : Nat) (h : tls k = none) :
    (impl_tss_dtor_invoke tbl tls).filter (fun t => t.1 == k) = [] := by
  induction tbl with
  | nil => rfl
  | cons e rest ih =>
    cases hd : e.dtor with
    | none => simp [impl_tss_dtor_invoke, hd, ih]
    | some d =>
      cases hv : tls e.key with
      | none => simp [impl_tss_dtor_invoke, hd, hv, ih]
      | some v =>
        have hk : e.key ≠ k := by
          intro hk
          rw [hk, h] at hv
          exact absurd hv (by simp)
        simp [impl_tss_dtor_invoke, hd, hv, hk, ih]

/-- For a key with a non-NULL TLS value, the sweep invokes, in table order,
exactly one destructor call per registered entry for that key, each with
that value. -/
theorem impl_tss_dtor_invoke_filter_some (tbl : List TssDtorEntry)
    (tls : Nat → Option Nat) (k v : Nat) (h : tls k = some v) :
    (impl_tss_dtor_invoke tbl tls).filter (fun t => t.1 == k) =
      (tbl.filter (fun e => e.key == k && e.dtor.isSome)).map
        (fun e => (k, e.dtor.getD 0, v)) := by
  induction tbl with
  | nil => rfl
  | cons e rest ih =>
    by_cases hk : e.key = k
    · cases hd : e.dtor with
      | none => subst hk; simp [impl_tss_dtor_invoke, hd, ih]
      | some d => subst hk; simp [impl_tss_dtor_invoke, hd, h, ih]
    · cases hd : e.dtor with
      | none => simp [impl_tss_dtor_invoke, hd, hk, ih]
      | some d =>
        cases hv : tls e.key with
        | none => simp [impl_tss_dtor_invoke, hd, hv, hk, ih]
        | some w => simp [impl_tss_dtor_invoke, hd, hv, hk, ih]

/-- The destructor sweep, as an ordered trace: the table scanned in
insertion order, one invocation per entry with a non-NULL destructor and a
non-NULL current value. -/
theorem impl_tss_dtor_invoke_trace (tbl : List TssDtorEntry)
    (tls : Nat → Option Nat) :
    impl_tss_dtor_invoke tbl tls =
      tbl.filterMap (fun e =>
        e.dtor.bind (fun d => (tls e.key).map (fun v => (e.key, d, v)))) := by
  induction tbl with
  | nil => rfl
  | cons e rest ih =>
    cases hd : e.dtor with
    | none => simp [impl_tss_dtor_invoke, hd, ih]
    | some d =>
      cases hv : tls e.key with
      | none => simp [impl_tss_dtor_invoke, hd, hv, ih]
      | some v => simp [impl_tss_dtor_invoke, hd, hv, ih]

/-- Claim C6: the thread-exit destructor sweep walks the table in insertion
order; a slot whose value for the exiting thread is NULL (never set) gets
zero destructor invocations, a slot with a non-NULL value gets exactly one
invocation with that last-set value for each of its registered entries, and
overall the sweep is the ordered trace of the entries with non-NULL
destructor and non-NULL current value. -/
theorem tss_dtor_sweep_spec (tbl : List TssDtorEntry)
    (tls : Nat → Option Nat) (k : Nat) :
    (tls k = none →
      (impl_tss_dtor_invoke tbl tls).filter (fun t => t.1 == k) = []) ∧
    (∀ v, tls k = some v →
      (impl_tss_dtor_invoke tbl tls).filter (fun t => t.1 == k) =
        (tbl.filter (fun e => e.key == k && e.dtor.isSome)).map
          (fun e => (k, e.dtor.getD 0, v))) ∧
    impl_tss_dtor_invoke tbl tls =
      tbl.filterMap (fun e =>
        e.dtor.bind (fun d => (tls e.key).map (fun v => (e.key, d, v)))) :=
  ⟨fun h => impl_tss_dtor_invoke_filter_none tbl tls k h,
   fun v h => impl_tss_dtor_invoke_filter_some tbl tls k v h,
   impl_tss_dtor_invoke_trace tbl tls⟩

/-- Witness for C6: with entries for keys 1 (twice), 2 (free) and 3, and a
thread that only ever set key 1 to 99, the sweep invokes the two key-1
destructors with 99 and never invokes the key-3 destructor. -/
theorem tss_dtor_sweep_spec_witness :
    (impl_tss_dtor_invoke
        [⟨1, some 10⟩, ⟨2, none⟩, ⟨1, some 11⟩, ⟨3, some 12⟩]
        (fun n => if n = 1 then some 99 else none)).filter (fun t => t.1 == 1) =
      [(1, 10, 99), (1, 11, 99)] ∧
    (impl_tss_dtor_invoke
        [⟨1, some 10⟩, ⟨2, none⟩, ⟨1, some 11⟩, ⟨3, some 12⟩]
        (fun n => if n = 1 then some 99 else none)).filter (fun t => t.1 == 3) =
      [] := by
  constructor
  · have h := (tss_dtor_sweep_spec
        [⟨1, some 10⟩, ⟨2, none⟩, ⟨1, some 11⟩, ⟨3, some 12⟩]
        (fun n => if n = 1 then some 99 else none) 1).2.1 99 (by decide)
    rw [h]; decide
  · exact (tss_dtor_sweep_spec
      [⟨1, some 10⟩, ⟨2, none⟩, ⟨1, some 11⟩, ⟨3, some 12⟩]
      (fun n => if n = 1 then some 99 else none) 3).1 (by decide)

/-- Claim C9: `tss_delete` only releases the native slot handle; the
process-wide destructor table is left completely unchanged, entry for entry,
for every slot and every state. -/
theorem tss_delete_frame (st : TssState) (key : Nat) :
    (tss_delete st key).tbl = st.tbl ∧
    (∀ e, e ∈ (tss_delete st key).tbl ↔ e ∈ st.tbl) ∧
    (tss_delete st key).slots = st.slots.erase key :=
  ⟨rfl, fun _ => Iff.rfl, rfl⟩

end EvoThreads
